import Mathlib

/-!
Shallow embedding of the Email-Aggregator synchronization engine:
the AI classification client (`AIService.categorizeEmail`), the IMAP
account session pipeline (`IMAPService.processEmail`,
`fetchEmailsBySeqNo`, `performInitialSync`, the `mail` handler,
`scheduleReconnect`), the Elasticsearch index operations used by the
pipeline, and the webhook fanout (`WebhookService`).

State (the Elasticsearch index, the reconnect-attempt counters) is
passed explicitly; network collaborators (the AI model, webhook
destinations, the IMAP fetch/parse results) are oracles supplied as
function arguments, so each theorem quantifies over every possible
collaborator behaviour.
-/

namespace EmailAgg

/-! ### AIService (src/services/ai/AIService.ts) -/

/-- The list of valid categories, defined once (AIService.ts `validCategories`). -/
def validCategories : List String :=
  ["Interested", "Meeting Booked", "Not Interested", "Spam", "Out of Office",
   "Uncategorized"]

/-- Outcome of one call to the generative-AI collaborator, as seen by
`AIService.categorizeEmail`: the service may be unconfigured (no model),
the call may throw (network error, malformed JSON, timeout), or it may
return a JSON object whose `category` field is absent or some string. -/
inductive AIOutcome where
  | notConfigured : AIOutcome
  | failure : AIOutcome
  | response : Option String → AIOutcome
deriving DecidableEq

/-- `AIService.categorizeEmail`: returns `Uncategorized` when the model is
unconfigured, when the call throws, or when the returned category is
falsy or not in `validCategories`; otherwise returns the model's category. -/
def categorizeEmail (o : AIOutcome) : String :=
  match o with
  | .notConfigured => "Uncategorized"
  | .failure => "Uncategorized"
  | .response none => "Uncategorized"
  | .response (some c) =>
      if c ≠ "" ∧ c ∈ validCategories then c else "Uncategorized"

theorem categorizeEmail_mem_valid (o : AIOutcome) :
    categorizeEmail o ∈ validCategories := by
  cases o with
  | notConfigured => simp [categorizeEmail, validCategories]
  | failure => simp [categorizeEmail, validCategories]
  | response c =>
      cases c with
      | none => simp [categorizeEmail, validCategories]
      | some s =>
          simp only [categorizeEmail]
          split
          · next h => exact h.2
          · simp [validCategories]

/-! ### Reconnection scheduler (IMAPService.scheduleReconnect) -/

/-- Backoff parameters from config: `config.imap.reconnectDelay` (base
delay) and `config.imap.maxReconnectAttempts`. -/
structure ReconnectConfig where
  reconnectDelay : Nat
  maxReconnectAttempts : Nat

/-- The hard-coded delay cap in `scheduleReconnect` (60000 ms). -/
def reconnectDelayCap : Nat := 60000

/-- The delay computed by `scheduleReconnect` for a given attempt count:
`Math.min(config.imap.reconnectDelay * Math.pow(2, attempts), 60000)`. -/
def reconnectDelay (cfg : ReconnectConfig) (attempts : Nat) : Nat :=
  min (cfg.reconnectDelay * 2 ^ attempts) reconnectDelayCap

/-- `IMAPService.scheduleReconnect`: if the attempt count has reached
`maxReconnectAttempts` it returns without scheduling; otherwise it
schedules a timer after `reconnectDelay` and stores `attempts + 1`.
The result is `none` (no reconnect scheduled) or
`some (delay, newAttemptCount)`. -/
def scheduleReconnect (cfg : ReconnectConfig) (attempts : Nat) :
    Option (Nat × Nat) :=
  if attempts ≥ cfg.maxReconnectAttempts then none
  else some (reconnectDelay cfg attempts, attempts + 1)

/-- The `ready` handler (`setupIMAPHandlers`): on a successful connection
it writes `0` into `reconnectAttempts` for that account. The map of
per-account attempt counters is modelled as a function. -/
def onReadyAttempts (attemptsMap : String → Nat) (accountId : String) :
    String → Nat :=
  fun a => if a = accountId then 0 else attemptsMap a

/-! ### Parsed mail and address extraction (mailparser / processEmail) -/

/-- One entry of an address object's `value` array (mailparser): it may
carry an `address` and/or a display `name`; group entries have no
`address`. `none` models a missing/`undefined` field, `some ""` an
empty string. -/
structure AddrValue where
  address : Option String
  name : Option String
deriving DecidableEq

/-- One mailparser address object; its `value` field is an array of
entries when well-formed, `none` when missing or not an array. -/
structure AddrObject where
  value : Option (List AddrValue)
deriving DecidableEq

/-- A mailparser address field is either a single address object or an
array of address objects. -/
inductive AddrField where
  | single : AddrObject → AddrField
  | multiple : List AddrObject → AddrField
deriving DecidableEq

/-- The `getAddresses` helper inside `IMAPService.processEmail`:
`if (!field) return []`; if the field is an array, flatMap each item,
taking `item.value.map(v => v.address || "")` when `item.value` is an
array and `[]` otherwise; for a single object the same on `field.value`. -/
def getAddresses (field : Option AddrField) : List String :=
  match field with
  | none => []
  | some (.multiple objs) =>
      objs.flatMap (fun item =>
        match item.value with
        | some vs => vs.map (fun v => v.address.getD "")
        | none => [])
  | some (.single obj) =>
      match obj.value with
      | some vs => vs.map (fun v => v.address.getD "")
      | none => []

/-- All entries sitting under a well-formed (array-valued) `value` field
of the address field; entries under a missing/malformed `value` do not
appear. Used to state what `getAddresses` flattens. -/
def valueEntries (field : Option AddrField) : List AddrValue :=
  match field with
  | none => []
  | some (.multiple objs) => objs.flatMap (fun item => item.value.getD [])
  | some (.single obj) => obj.value.getD []

/-- Drops leading whitespace characters from a character list. -/
def dropLeadingWs : List Char → List Char
  | [] => []
  | c :: cs => if c.isWhitespace then dropLeadingWs cs else c :: cs

/-- JavaScript `s.trim()`: removes whitespace from both ends. -/
def jsTrim (s : String) : String :=
  ⟨(dropLeadingWs (dropLeadingWs s.data).reverse).reverse⟩

/-- JavaScript `a || b` on an optional string: `undefined` and the empty
string are falsy. -/
def jsOr (o : Option String) (d : String) : String :=
  match o with
  | none => d
  | some s => if s = "" then d else s

/-- JavaScript truthiness guard `...(x && { f: x })` on an optional
string: the field is kept only when present and non-empty. -/
def jsTruthy (o : Option String) : Option String :=
  match o with
  | none => none
  | some s => if s = "" then none else some s

/-- The output of `simpleParser` as consumed by `processEmail`.
`html` is `some s` when `typeof parsed.html === "string"` (mailparser
yields `false` otherwise, modelled `none`); `date` is an abstract
timestamp. -/
structure ParsedMail where
  messageId : Option String
  html : Option String
  text : Option String
  subject : Option String
  «from» : Option AddrField
  «to» : Option AddrField
  cc : Option AddrField
  date : Option Nat
  inReplyTo : Option String
  references : Option (List String)
deriving DecidableEq

/-! ### EmailDocument and the Elasticsearch index
(src/services/elasticsearch/ElasticsearchService.ts) -/

/-- The `EmailDocument` record indexed into Elasticsearch, with the
field set built by `processEmail`. Optional spread fields (`htmlBody`,
`cc`, `inReplyTo`, `references`) are `Option`s. -/
structure EmailDocument where
  id : String
  accountId : String
  folder : String
  subject : String
  body : String
  htmlBody : Option String
  «from» : String
  «to» : List String
  cc : Option (List String)
  date : Nat
  aiCategory : String
  indexedAt : Nat
  messageId : String
  inReplyTo : Option String
  references : Option (List String)
deriving DecidableEq

/-- The durable Elasticsearch index, modelled as the list of indexed
documents (success path of the storage collaborator). -/
abbrev ESIndex := List EmailDocument

/-- `ElasticsearchService.existsByMessageId`: a term query on the
`messageId` keyword field — true iff some indexed document carries that
message id. -/
def existsByMessageId (mid : String) (idx : ESIndex) : Bool :=
  idx.any (fun d => d.messageId == mid)

/-- `ElasticsearchService.indexEmail`: inserts the document. -/
def indexEmail (d : EmailDocument) (idx : ESIndex) : ESIndex :=
  d :: idx

/-- `ElasticsearchService.updateEmailCategory`: partial update setting
`aiCategory` on the document with the given Elasticsearch id. -/
def updateEmailCategory (emailId category : String) (idx : ESIndex) :
    ESIndex :=
  idx.map (fun d => if d.id = emailId then { d with aiCategory := category }
                    else d)

/-! ### Ingestion pipeline (IMAPService.processEmail) -/

/-- Per-message collaborator behaviour for one `processEmail` call:
the `html-to-text` conversion, the generated uuid, the wall clock
(`new Date()`), and the AI collaborator's outcome for this message. -/
structure MsgEnv where
  htmlToText : String → String
  freshId : String
  now : Nat
  classify : AIOutcome

/-- The `EmailDocument` literal built inside `processEmail` before
indexing: html-to-text body with plain-text fallback, `(No Subject)`
placeholder, flattened address lists, generated-id fallback for a
missing message id, and initial category `Uncategorized`. -/
def buildEmailDoc (env : MsgEnv) (parsed : ParsedMail)
    (accountId folder : String) (rawMessageId : String) : EmailDocument :=
  let html := parsed.html.getD ""
  let text := parsed.text.getD ""
  let bodyText := if html ≠ "" then env.htmlToText html else text
  let ccText := if parsed.cc.isSome then some (getAddresses parsed.cc)
                else none
  { id := env.freshId
    accountId := accountId
    folder := folder
    subject := jsOr parsed.subject "(No Subject)"
    body := bodyText
    htmlBody := parsed.html
    «from» := if parsed.«from».isSome then
                (getAddresses parsed.«from»).headD ""
              else ""
    «to» := getAddresses parsed.«to»
    cc := match ccText with
          | some l => if l.length > 0 then some l else none
          | none => none
    date := parsed.date.getD env.now
    aiCategory := "Uncategorized"
    indexedAt := env.now
    messageId := if rawMessageId ≠ "" then rawMessageId else env.freshId
    inReplyTo := jsTruthy parsed.inReplyTo
    references := parsed.references }

/-- Observable outcome of one `processEmail` call: the index afterwards,
the document inserted (with its final category) if the message was not
skipped, whether the AI collaborator was invoked, and whether webhook
fanout was triggered. -/
structure ProcessResult where
  index : ESIndex
  inserted : Option EmailDocument
  classified : Bool
  webhookAttempted : Bool
deriving DecidableEq

/-- The non-duplicate path of `processEmail`: builds the document,
indexes it with category `Uncategorized`, invokes
`AIService.categorizeEmail`, updates the category, and triggers
webhooks exactly when the category is `Interested`. -/
def processNewEmail (env : MsgEnv) (parsed : ParsedMail)
    (accountId folder : String) (idx : ESIndex) : ProcessResult :=
  let doc0 := buildEmailDoc env parsed accountId folder
    (jsTrim (parsed.messageId.getD ""))
  let cat := categorizeEmail env.classify
  { index := updateEmailCategory doc0.id cat (indexEmail doc0 idx),
    inserted := some { doc0 with aiCategory := cat },
    classified := true,
    webhookAttempted := (cat == "Interested") }

/-- `IMAPService.processEmail`: trims the transport message id; when it
is non-empty and `existsByMessageId` finds it, returns without any
further work (duplicate skipped). Otherwise runs the non-duplicate
path `processNewEmail`. -/
def processEmail (env : MsgEnv) (parsed : ParsedMail)
    (accountId folder : String) (idx : ESIndex) : ProcessResult :=
  if jsTrim (parsed.messageId.getD "") ≠ "" ∧
      existsByMessageId (jsTrim (parsed.messageId.getD "")) idx = true then
    { index := idx, inserted := none, classified := false,
      webhookAttempted := false }
  else
    processNewEmail env parsed accountId folder idx

/-! ### Batch fetch (IMAPService.fetchEmailsBySeqNo) and sync phases -/

/-- Collaborator behaviour for a batch: per-sequence-number parse result
(`none` models a `simpleParser`/stream failure for that message — the
per-message promise rejects), per-message uuid and classification
outcome, shared html-to-text and clock. -/
structure SyncEnv where
  htmlToText : String → String
  freshId : Nat → String
  now : Nat
  classify : Nat → AIOutcome
  parse : Nat → Option ParsedMail

/-- The per-message environment a batch run hands to `processEmail`. -/
def msgEnv (env : SyncEnv) (seq : Nat) : MsgEnv :=
  { htmlToText := env.htmlToText, freshId := env.freshId seq,
    now := env.now, classify := env.classify seq }

/-- Observable outcome of one `fetchEmailsBySeqNo` call: the index
afterwards, the trace of messages that were parsed and run through
`processEmail` (sequence number and inserted document, in order), and
`ok` — whether the batch-level promise resolved (`Promise.all` over the
per-message promises rejects as soon as any message's parse failed). -/
structure BatchResult where
  index : ESIndex
  trace : List (Nat × Option EmailDocument)
  ok : Bool
deriving DecidableEq

/-- One step of the batch: a message whose parse fails is skipped and
poisons the batch-level promise (`ok := false`); a message that parses
runs the full `processEmail` pipeline on the current index. -/
def batchStep (env : SyncEnv) (accountId folder : String)
    (acc : BatchResult) (seq : Nat) : BatchResult :=
  match env.parse seq with
  | none => { acc with ok := false }
  | some parsed =>
      let r := processEmail (msgEnv env seq) parsed accountId folder acc.index
      { index := r.index, trace := acc.trace ++ [(seq, r.inserted)],
        ok := acc.ok }

/-- `IMAPService.fetchEmailsBySeqNo`: fetches the listed sequence
numbers; every message is independently parsed and processed, and the
returned promise resolves only when every per-message promise resolved
(one parse failure makes the batch promise reject, after the other
messages were still processed). -/
def fetchEmailsBySeqNo (env : SyncEnv) (accountId folder : String)
    (seqNos : List Nat) (idx : ESIndex) : BatchResult :=
  seqNos.foldl (batchStep env accountId folder)
    { index := idx, trace := [], ok := true }

/-- JavaScript `array.slice(-n)`: the last `n` elements (all of them when
fewer than `n`). -/
def takeLast (n : Nat) (l : List α) : List α :=
  l.drop (l.length - n)

/-- `IMAPService.performInitialSync`: searches `ALL` in INBOX; with no
results it resolves immediately, otherwise it fetches
`results.slice(-10)` — the last 10 message identifiers. -/
def performInitialSync (env : SyncEnv) (accountId : String)
    (results : List Nat) (idx : ESIndex) : BatchResult :=
  if results.isEmpty then { index := idx, trace := [], ok := true }
  else fetchEmailsBySeqNo env accountId "INBOX" (takeLast 10 results) idx

/-- The `mail` event handler in `setupIMAPHandlers`: searches `UNSEEN`;
with no results it returns, otherwise it fetches only
`results[results.length - 1]` — the single latest unseen message. -/
def onMailHandler (env : SyncEnv) (accountId : String)
    (unseenResults : List Nat) (idx : ESIndex) : BatchResult :=
  match unseenResults.getLast? with
  | none => { index := idx, trace := [], ok := true }
  | some latestSeqNo =>
      fetchEmailsBySeqNo env accountId "INBOX" [latestSeqNo] idx

/-! ### Webhook fanout (src/services/webhook/WebhookService.ts) -/

/-- The webhook configuration: an optional Slack URL, an optional
generic URL, and a list of additional interested-lead URLs. -/
structure WebhookConfig where
  slack : Option String
  generic : Option String
  interestedUrls : List String

/-- Outcome of one HTTP POST to one destination URL. -/
inductive PostOutcome where
  | success : PostOutcome
  | rateLimited : PostOutcome
  | failure : PostOutcome
deriving DecidableEq

/-- The `postSafely` helper in `sendGenericWebhook`: posts and returns
`true` on success; a 429 response or any other error is caught and
returns `false` — it never throws. -/
def postSafely (outcome : String → PostOutcome) (url : String) : Bool :=
  match outcome url with
  | .success => true
  | .rateLimited => false
  | .failure => false

/-- Observable outcome of one sender: the URLs a POST was attempted to
(in order), the number of successful posts, and whether the sender's
promise rejected. -/
structure SendResult where
  attempted : List String
  successes : Nat
  raised : Bool

/-- `WebhookService.sendSlackNotification`: returns early when no Slack
URL is configured; otherwise posts to it, and rethrows on any error
(including a rate-limit response — its catch block rethrows). -/
def sendSlackNotification (cfg : WebhookConfig)
    (outcome : String → PostOutcome) : SendResult :=
  match cfg.slack with
  | none => { attempted := [], successes := 0, raised := false }
  | some url =>
      match outcome url with
      | .success => { attempted := [url], successes := 1, raised := false }
      | _ => { attempted := [url], successes := 0, raised := true }

/-- JavaScript `Set.add`: appends the element unless already present
(insertion order preserved, first occurrence kept). -/
def setAdd (l : List String) (x : String) : List String :=
  if x ∈ l then l else l ++ [x]

/-- The broadcast URL set built in `sendGenericWebhook`: a `Set` seeded
with the generic URL, extended with every truthy interested URL, with
the already-attempted primary generic URL deleted. -/
def broadcastUrls (cfg : WebhookConfig) (genericUrl : String) :
    List String :=
  (((cfg.interestedUrls.filter (fun u => u ≠ "")).foldl setAdd
      (setAdd [] genericUrl))).erase genericUrl

/-- `WebhookService.sendGenericWebhook`: returns early when no generic
URL is configured; otherwise posts the sanitized payload to the primary
generic URL via `postSafely`, then broadcasts to the remaining URL set
via `postSafely`, counting successes. It never throws. -/
def sendGenericWebhook (cfg : WebhookConfig)
    (outcome : String → PostOutcome) : SendResult :=
  match cfg.generic with
  | none => { attempted := [], successes := 0, raised := false }
  | some genericUrl =>
      let okPrimary := postSafely outcome genericUrl
      let urls := broadcastUrls cfg genericUrl
      let results := urls.map (postSafely outcome)
      { attempted := genericUrl :: urls,
        successes := (if okPrimary then 1 else 0) +
          (results.filter (fun b => b)).length,
        raised := false }

/-- `WebhookService.triggerInterestedWebhooks`: starts the Slack sender
and the generic sender when configured, awaits both under a `try/catch`
that swallows any rejection — so the call never raises to its caller
(`raised := false`), and a Slack failure does not cancel the
already-started generic sender. -/
def triggerInterestedWebhooks (cfg : WebhookConfig)
    (outcome : String → PostOutcome) : SendResult :=
  let s := sendSlackNotification cfg outcome
  let g := sendGenericWebhook cfg outcome
  { attempted := s.attempted ++ g.attempted,
    successes := s.successes + g.successes,
    raised := false }

/-- The number of configured notification destinations: the optional
Slack entry, the optional generic entry, and every entry of the
interested-URL list. -/
def numConfigured (cfg : WebhookConfig) : Nat :=
  (if cfg.slack.isSome then 1 else 0) +
    (if cfg.generic.isSome then 1 else 0) + cfg.interestedUrls.length

/-! ### Sanitized generic-webhook payload (sendGenericWebhook) -/

/-- A JSON field value in the sanitized payload. -/
inductive FieldValue where
  | str : String → FieldValue
  | strList : List String → FieldValue
  | nat : Nat → FieldValue
deriving DecidableEq

/-- JavaScript `s.substring(0, n)`: the first `n` characters. -/
def jsSubstring (s : String) (n : Nat) : String :=
  ⟨s.data.take n⟩

/-- The `sanitizedEmail` object literal built in `sendGenericWebhook`:
keys in source order; `to` sliced to 5, `cc` included only when present
and non-empty (sliced to 5), `body` truncated to 300 characters, and no
`htmlBody` key. -/
def sanitizeEmail (e : EmailDocument) : List (String × FieldValue) :=
  [("id", .str e.id), ("accountId", .str e.accountId),
   ("folder", .str e.folder), ("subject", .str e.subject),
   ("from", .str e.«from»), ("to", .strList (e.«to».take 5))] ++
  (match e.cc with
   | some cc => if cc.length > 0 then [("cc", .strList (cc.take 5))] else []
   | none => []) ++
  [("date", .nat e.date), ("aiCategory", .str e.aiCategory),
   ("messageId", .str e.messageId),
   ("body", .str (jsSubstring e.body 300))]

/-! ### Concrete inputs used by witnesses and counterexamples -/

/-- A concrete parsed mail carrying the transport message id `<m1>`. -/
def exParsed : ParsedMail :=
  { messageId := some "<m1>", html := none, text := some "hello",
    subject := some "Hi", «from» := none, «to» := none, cc := none,
    date := some 7, inReplyTo := none, references := none }

/-- A concrete indexed document with message id `<m1>`. -/
def exDoc : EmailDocument :=
  { id := "es1", accountId := "a", folder := "INBOX", subject := "old",
    body := "", htmlBody := none, «from» := "", «to» := [], cc := none,
    date := 1, aiCategory := "Spam", indexedAt := 1, messageId := "<m1>",
    inReplyTo := none, references := none }

/-- A concrete per-message environment (AI unconfigured). -/
def exEnv : MsgEnv :=
  { htmlToText := fun s => s, freshId := "u1", now := 9,
    classify := .notConfigured }

/-! ### Claim theorems -/

/-- C1: for every inbound message whose transport message id is
non-empty after trimming and already present in the index,
`processEmail` returns with the index unchanged, no record inserted, no
classification call, and no webhook fanout. -/
theorem processEmail_skips_known_duplicate (env : MsgEnv)
    (parsed : ParsedMail) (accountId folder : String) (idx : ESIndex)
    (h1 : jsTrim (parsed.messageId.getD "") ≠ "")
    (h2 : existsByMessageId (jsTrim (parsed.messageId.getD "")) idx = true) :
    processEmail env parsed accountId folder idx =
      { index := idx, inserted := none, classified := false,
        webhookAttempted := false } := by
  unfold processEmail
  simp only [if_pos (And.intro h1 h2)]

/-- Witness for C1: a duplicate of the concrete document `exDoc` is
skipped. -/
theorem processEmail_skips_known_duplicate_witness :
    processEmail exEnv exParsed "a" "INBOX" [exDoc] =
      { index := [exDoc], inserted := none, classified := false,
        webhookAttempted := false } :=
  processEmail_skips_known_duplicate exEnv exParsed "a" "INBOX" [exDoc]
    (by decide) (by decide)

/-- C2: `categorizeEmail` always returns one of the six fixed
categories; being a total function of the collaborator outcome (which
includes the unconfigured, thrown-error and unrecognized-value cases,
all mapped to `Uncategorized`), it never propagates an error to its
caller. -/
theorem categorizeEmail_always_valid (o : AIOutcome) :
    categorizeEmail o ∈ validCategories :=
  categorizeEmail_mem_valid o

/-- C3: below the maximum attempt count the scheduled delay is
`min(baseDelay * 2^k, 60000)`, which is non-decreasing in `k`; at or
above the maximum no reconnect is scheduled; and the `ready` handler
resets the account's attempt counter to 0. -/
theorem scheduleReconnect_backoff (cfg : ReconnectConfig) (k : Nat)
    (attemptsMap : String → Nat) (accountId : String) :
    (k < cfg.maxReconnectAttempts →
      scheduleReconnect cfg k =
        some (min (cfg.reconnectDelay * 2 ^ k) 60000, k + 1))
    ∧ reconnectDelay cfg k ≤ reconnectDelay cfg (k + 1)
    ∧ (cfg.maxReconnectAttempts ≤ k → scheduleReconnect cfg k = none)
    ∧ onReadyAttempts attemptsMap accountId accountId = 0 := by
  refine ⟨?_, ?_, ?_, ?_⟩
  · intro h
    simp [scheduleReconnect, reconnectDelay, reconnectDelayCap,
      Nat.not_le.mpr h]
  · exact min_le_min
      (Nat.mul_le_mul_left _ (Nat.pow_le_pow_right (by norm_num)
        (Nat.le_succ k))) le_rfl
  · intro h
    simp [scheduleReconnect, h]
  · simp [onReadyAttempts]

/-- Witness for C3: with base delay 1000 and maximum 5 attempts, attempt
2 schedules a 4000 ms delay, and attempt 5 schedules nothing. -/
theorem scheduleReconnect_backoff_witness :
    scheduleReconnect ⟨1000, 5⟩ 2 = some (4000, 3)
    ∧ scheduleReconnect ⟨1000, 5⟩ 5 = none
    ∧ onReadyAttempts (fun _ => 3) "acct" "acct" = 0 :=
  ⟨by
    have h := (scheduleReconnect_backoff ⟨1000, 5⟩ 2 (fun _ => 3) "acct").1
      (by decide)
    simpa using h,
   (scheduleReconnect_backoff ⟨1000, 5⟩ 5 (fun _ => 3) "acct").2.2.1
     (by decide),
   (scheduleReconnect_backoff ⟨1000, 5⟩ 2 (fun _ => 3) "acct").2.2.2⟩

/-- C5: webhook fanout is attempted exactly when the document's assigned
category is `Interested`; in particular a failed classification yields
`Uncategorized` and no fanout. -/
theorem processEmail_fanout_iff_interested (env : MsgEnv)
    (parsed : ParsedMail) (accountId folder : String) (idx : ESIndex) :
    ((processEmail env parsed accountId folder idx).webhookAttempted = true ↔
      ∃ d, (processEmail env parsed accountId folder idx).inserted = some d ∧
        d.aiCategory = "Interested")
    ∧ (env.classify = AIOutcome.failure →
        (processEmail env parsed accountId folder idx).webhookAttempted
          = false) := by
  unfold processEmail
  split
  · simp
  · constructor
    · simp [processNewEmail, beq_iff_eq]
    · intro h
      simp [processNewEmail, h, categorizeEmail]

/-- Witness for C5: with a failing AI collaborator the concrete message
is stored as `Uncategorized` and no fanout is attempted. -/
theorem processEmail_fanout_iff_interested_witness :
    (processEmail { exEnv with classify := .failure } exParsed "a" "INBOX"
      []).webhookAttempted = false :=
  (processEmail_fanout_iff_interested { exEnv with classify := .failure }
    exParsed "a" "INBOX" []).2 rfl

/-- C9 counterexample: an address entry that has a display name but no
address (e.g. a group entry) is not dropped — `v.address || ""` maps it
to the empty string, which is included in the flattened list. -/
theorem getAddresses_keeps_empty_entry :
    getAddresses (some (AddrField.single ⟨some [⟨none, some "Bob"⟩]⟩))
        = [""]
    ∧ "" ∈ getAddresses
        (some (AddrField.single ⟨some [⟨none, some "Bob"⟩]⟩)) := by
  constructor
  · rfl
  · simp [getAddresses]

/-- C9 amended: `getAddresses` totally (never raising) flattens exactly
the entries sitting under well-formed (array-valued) `value` fields —
objects with a missing or malformed `value` are dropped wholesale — and
maps each entry to its plain address with the display name removed;
however an entry without an address contributes an empty string to the
result rather than being dropped. -/
theorem getAddresses_flattens_wellformed (field : Option AddrField) :
    getAddresses field =
      (valueEntries field).map (fun v => v.address.getD "") := by
  cases field with
  | none => rfl
  | some f =>
      cases f with
      | single obj =>
          cases obj with
          | mk v => cases v <;> rfl
      | multiple objs =>
          induction objs with
          | nil => rfl
          | cons o rest ih =>
              cases o with
              | mk v =>
                  cases v with
                  | none =>
                      simpa [getAddresses, valueEntries] using ih
                  | some vs =>
                      simp only [getAddresses, valueEntries,
                        List.flatMap_cons, List.map_append,
                        Option.getD_some] at ih ⊢
                      simp [ih]

/-- C10: the sanitized generic-webhook payload is bounded: it never
contains an `htmlBody` key, its `body` is the input body truncated to at
most 300 characters, its `to` list has at most 5 addresses, and its `cc`
list (when present) has at most 5 addresses. -/
theorem sanitizeEmail_bounded (e : EmailDocument) :
    "htmlBody" ∉ (sanitizeEmail e).map Prod.fst
    ∧ (sanitizeEmail e).lookup "body"
        = some (.str (jsSubstring e.body 300))
    ∧ (jsSubstring e.body 300).length ≤ 300
    ∧ (sanitizeEmail e).lookup "to" = some (.strList (e.«to».take 5))
    ∧ (e.«to».take 5).length ≤ 5
    ∧ (∀ l, (sanitizeEmail e).lookup "cc" = some (.strList l) →
        l.length ≤ 5) := by
  have hbody : (jsSubstring e.body 300).length ≤ 300 := by
    show (e.body.data.take 300).length ≤ 300
    exact List.length_take_le 300 e.body.data
  have hto : (e.«to».take 5).length ≤ 5 := List.length_take_le 5 e.«to»
  cases hcc : e.cc with
  | none =>
      refine ⟨?_, ?_, hbody, ?_, hto, ?_⟩ <;>
        simp [sanitizeEmail, hcc, List.lookup]
  | some cc =>
      by_cases hlen : cc.length > 0
      · refine ⟨?_, ?_, hbody, ?_, hto, ?_⟩
        · simp [sanitizeEmail, hcc, hlen]
        · simp [sanitizeEmail, hcc, hlen, List.lookup]
        · simp [sanitizeEmail, hcc, hlen, List.lookup]
        · intro l hl
          simp [sanitizeEmail, hcc, hlen, List.lookup] at hl
          subst hl
          exact List.length_take_le 5 cc
      · refine ⟨?_, ?_, hbody, ?_, hto, ?_⟩ <;>
          simp [sanitizeEmail, hcc, hlen, List.lookup]

/-- Witness for C10: the concrete payload of a document with 7 cc
addresses keeps at most 5 and has no `htmlBody` key. -/
theorem sanitizeEmail_bounded_witness :
    ((({ exDoc with
          cc := some ["c1", "c2", "c3", "c4", "c5", "c6", "c7"] }
        : EmailDocument).cc.getD []).take 5).length ≤ 5
    ∧ "htmlBody" ∉ (sanitizeEmail { exDoc with
          cc := some ["c1", "c2", "c3", "c4", "c5", "c6", "c7"] }).map
        Prod.fst :=
  ⟨(sanitizeEmail_bounded { exDoc with
      cc := some ["c1", "c2", "c3", "c4", "c5", "c6", "c7"] }).2.2.2.2.2
    (["c1", "c2", "c3", "c4", "c5", "c6", "c7"].take 5) (by decide),
   (sanitizeEmail_bounded { exDoc with
      cc := some ["c1", "c2", "c3", "c4", "c5", "c6", "c7"] }).1⟩

/-! ### Helper lemmas about batch runs -/

theorem batch_foldl_trace (env : SyncEnv) (accountId folder : String)
    (seqNos : List Nat) (acc : BatchResult) :
    ((seqNos.foldl (batchStep env accountId folder) acc).trace.map
        Prod.fst) =
      acc.trace.map Prod.fst ++
        seqNos.filter (fun s => (env.parse s).isSome) := by
  induction seqNos generalizing acc with
  | nil => simp
  | cons s rest ih =>
      cases h : env.parse s with
      | none =>
          simp only [List.foldl_cons, batchStep, h, List.filter_cons]
          rw [ih]
          simp [h]
      | some parsed =>
          simp only [List.foldl_cons, batchStep, h, List.filter_cons]
          rw [ih]
          simp [h]

theorem batch_foldl_ok (env : SyncEnv) (accountId folder : String)
    (seqNos : List Nat) (acc : BatchResult) :
    (seqNos.foldl (batchStep env accountId folder) acc).ok = true ↔
      (acc.ok = true ∧
        ∀ s ∈ seqNos, (env.parse s).isSome = true) := by
  induction seqNos generalizing acc with
  | nil => simp
  | cons s rest ih =>
      cases h : env.parse s with
      | none =>
          simp only [List.foldl_cons, batchStep, h]
          rw [ih]
          simp [h]
      | some parsed =>
          simp only [List.foldl_cons, batchStep, h]
          rw [ih]
          simp [h]

/-! ### Concrete batch environment for C6 and C7 -/

/-- A concrete batch environment in which message 1 fails to parse and
every other message parses to `exParsed2` (a mail with a fresh message
id per sequence number would collide; here ids are absent so every
message is treated as novel). -/
def exParsed2 : ParsedMail :=
  { messageId := none, html := none, text := some "hi",
    subject := some "S", «from» := none, «to» := none, cc := none,
    date := some 3, inReplyTo := none, references := none }

def exSyncEnv : SyncEnv :=
  { htmlToText := fun s => s, freshId := fun n => toString n,
    now := 5, classify := fun _ => .notConfigured,
    parse := fun s => if s = 1 then none else some exParsed2 }

/-- C6 counterexample: in a batch of two messages where message 1 fails
to parse, message 2 is still processed, but the batch-level fetch
promise rejects (`ok = false`) instead of completing. -/
theorem fetch_batch_rejects_on_parse_error :
    (fetchEmailsBySeqNo exSyncEnv "a" "INBOX" [1, 2] []).ok = false
    ∧ (fetchEmailsBySeqNo exSyncEnv "a" "INBOX" [1, 2] []).trace.map
        Prod.fst = [2] := by
  constructor
  · rfl
  · rfl

/-- C6 amended: a parse error in one message causes only that message to
be skipped — exactly the messages that parse are run through the
pipeline, in order — but the batch-level fetch operation resolves only
when every message parsed; any parse failure makes it reject (propagate
the error) rather than complete. -/
theorem fetch_batch_skips_only_failed (env : SyncEnv)
    (accountId folder : String) (seqNos : List Nat) (idx : ESIndex) :
    (fetchEmailsBySeqNo env accountId folder seqNos idx).trace.map
        Prod.fst = seqNos.filter (fun s => (env.parse s).isSome)
    ∧ ((fetchEmailsBySeqNo env accountId folder seqNos idx).ok = true ↔
        ∀ s ∈ seqNos, (env.parse s).isSome = true) := by
  constructor
  · simpa using batch_foldl_trace env accountId folder seqNos
      { index := idx, trace := [], ok := true }
  · rw [fetchEmailsBySeqNo, batch_foldl_ok]
    simp

/-- Witness for C6 (amended): in the concrete two-message batch the
parseable message 2 is processed and the batch rejects. -/
theorem fetch_batch_skips_only_failed_witness :
    (fetchEmailsBySeqNo exSyncEnv "a" "INBOX" [1, 2] []).trace.map
        Prod.fst = [1, 2].filter (fun s => (exSyncEnv.parse s).isSome)
    ∧ ¬ ((fetchEmailsBySeqNo exSyncEnv "a" "INBOX" [1, 2] []).ok
        = true) :=
  ⟨(fetch_batch_skips_only_failed exSyncEnv "a" "INBOX" [1, 2] []).1,
   fun h =>
     absurd ((fetch_batch_skips_only_failed exSyncEnv "a" "INBOX" [1, 2]
       []).2.mp h 1 (by decide)) (by decide)⟩

/-- C7 counterexample: in live mode, with unseen messages 3 and 5
reported by the re-query, the `mail` handler runs the pipeline only on
message 5 (the latest), not on every unseen message. -/
theorem mail_handler_ignores_older_unseen :
    (onMailHandler exSyncEnv "a" [3, 5] []).trace.map Prod.fst = [5]
    ∧ (onMailHandler exSyncEnv "a" [3, 5] []).trace.map Prod.fst
        ≠ [3, 5] := by
  constructor
  · rfl
  · decide

/-- C7 amended: on a new-message notification the handler re-queries for
unseen messages and runs the ingestion pipeline on exactly one of them —
the last (latest) result of the re-query. -/
theorem mail_handler_processes_only_latest (env : SyncEnv)
    (accountId : String) (unseenResults : List Nat) (idx : ESIndex)
    (latest : Nat) (h : unseenResults.getLast? = some latest)
    (hp : (env.parse latest).isSome = true) :
    (onMailHandler env accountId unseenResults idx).trace.map Prod.fst
      = [latest] := by
  unfold onMailHandler
  rw [h]
  simp only [fetchEmailsBySeqNo]
  rw [batch_foldl_trace]
  simp [hp]

/-- Witness for C7 (amended): with unseen messages 3 and 5 the handler
processes exactly message 5. -/
theorem mail_handler_processes_only_latest_witness :
    (onMailHandler exSyncEnv "a" [3, 5] []).trace.map Prod.fst = [5] :=
  mail_handler_processes_only_latest exSyncEnv "a" [3, 5] [] 5
    (by decide) (by decide)

/-! ### Helper lemmas about the webhook URL set -/

theorem length_setAdd (l : List String) (x : String) :
    (setAdd l x).length ≤ l.length + 1 := by
  unfold setAdd
  split
  · omega
  · simp

theorem mem_setAdd_of_mem (l : List String) (x y : String) (h : y ∈ l) :
    y ∈ setAdd l x := by
  unfold setAdd
  split
  · exact h
  · exact List.mem_append_left _ h

theorem length_foldl_setAdd (l : List String) (init : List String) :
    (l.foldl setAdd init).length ≤ init.length + l.length := by
  induction l generalizing init with
  | nil => simp
  | cons x rest ih =>
      calc ((x :: rest).foldl setAdd init).length
          = (rest.foldl setAdd (setAdd init x)).length := by simp
        _ ≤ (setAdd init x).length + rest.length := ih _
        _ ≤ (init.length + 1) + rest.length := by
            have := length_setAdd init x
            omega
        _ = init.length + (x :: rest).length := by simp; omega

theorem mem_foldl_setAdd (l : List String) (init : List String)
    (y : String) (h : y ∈ init) : y ∈ l.foldl setAdd init := by
  induction l generalizing init with
  | nil => exact h
  | cons x rest ih =>
      simpa using ih (setAdd init x) (mem_setAdd_of_mem init x y h)

theorem length_broadcastUrls (cfg : WebhookConfig) (g : String) :
    (broadcastUrls cfg g).length ≤ cfg.interestedUrls.length := by
  unfold broadcastUrls
  set filtered := cfg.interestedUrls.filter (fun u => u ≠ "") with hf
  have hg : g ∈ filtered.foldl setAdd (setAdd [] g) :=
    mem_foldl_setAdd filtered (setAdd [] g) g (by simp [setAdd])
  rw [List.length_erase_of_mem hg]
  have h1 : (filtered.foldl setAdd (setAdd [] g)).length ≤
      (setAdd [] g).length + filtered.length :=
    length_foldl_setAdd filtered (setAdd [] g)
  have h2 : (setAdd [] g).length = 1 := by simp [setAdd]
  have h3 : filtered.length ≤ cfg.interestedUrls.length :=
    List.length_filter_le _ _
  omega

theorem slack_attempted_eq (cfg : WebhookConfig)
    (o : String → PostOutcome) :
    (sendSlackNotification cfg o).attempted = cfg.slack.toList := by
  unfold sendSlackNotification
  cases cfg.slack with
  | none => rfl
  | some url => cases h : o url <;> simp [h]

theorem slack_successes_le (cfg : WebhookConfig)
    (o : String → PostOutcome) :
    (sendSlackNotification cfg o).successes ≤
      if cfg.slack.isSome then 1 else 0 := by
  unfold sendSlackNotification
  cases cfg.slack with
  | none => simp
  | some url => cases h : o url <;> simp [h]

theorem generic_attempted_eq (cfg : WebhookConfig)
    (o : String → PostOutcome) :
    (sendGenericWebhook cfg o).attempted =
      (match cfg.generic with
       | none => []
       | some g => g :: broadcastUrls cfg g) := by
  unfold sendGenericWebhook
  cases cfg.generic <;> rfl

theorem generic_successes_le (cfg : WebhookConfig)
    (o : String → PostOutcome) :
    (sendGenericWebhook cfg o).successes ≤
      (if cfg.generic.isSome then 1 else 0) +
        cfg.interestedUrls.length := by
  unfold sendGenericWebhook
  cases cfg.generic with
  | none => simp
  | some g =>
      simp only [Option.isSome_some, if_pos]
      have hfilter : (((broadcastUrls cfg g).map (postSafely o)).filter
          (fun b => b)).length ≤ (broadcastUrls cfg g).length := by
        calc (((broadcastUrls cfg g).map (postSafely o)).filter
              (fun b => b)).length
            ≤ ((broadcastUrls cfg g).map (postSafely o)).length :=
              List.length_filter_le _ _
          _ = (broadcastUrls cfg g).length := List.length_map _ _
      have hb := length_broadcastUrls cfg g
      split <;> simp <;> omega

/-- C8: webhook fanout never raises past its caller (the `try/catch`
around `Promise.all` swallows every sender rejection), the set of
destinations a delivery is attempted to does not depend on any
destination's outcome (so one destination's failure or rate-limit never
prevents the others' attempts), and the success count never exceeds the
number of configured destinations. -/
theorem triggerInterestedWebhooks_contract (cfg : WebhookConfig)
    (o o' : String → PostOutcome) :
    (triggerInterestedWebhooks cfg o).raised = false
    ∧ (triggerInterestedWebhooks cfg o).attempted =
        (triggerInterestedWebhooks cfg o').attempted
    ∧ (triggerInterestedWebhooks cfg o).successes ≤ numConfigured cfg := by
  refine ⟨rfl, ?_, ?_⟩
  · show (sendSlackNotification cfg o).attempted ++
        (sendGenericWebhook cfg o).attempted =
      (sendSlackNotification cfg o').attempted ++
        (sendGenericWebhook cfg o').attempted
    rw [slack_attempted_eq, slack_attempted_eq, generic_attempted_eq,
      generic_attempted_eq]
  · show (sendSlackNotification cfg o).successes +
        (sendGenericWebhook cfg o).successes ≤ numConfigured cfg
    have h1 := slack_successes_le cfg o
    have h2 := generic_successes_le cfg o
    unfold numConfigured
    omega

/-! ### Helper lemmas for the initial-sync claim -/

/-- The index holds a document with the given Elasticsearch id whose
category is one of the six fixed categories. -/
def hasValidCatDoc (i : String) (idx : ESIndex) : Prop :=
  ∃ d ∈ idx, d.id = i ∧ d.aiCategory ∈ validCategories

theorem processEmail_preserves_validCat (env : MsgEnv)
    (parsed : ParsedMail) (accountId folder : String) (idx : ESIndex)
    (i : String) (h : hasValidCatDoc i idx) :
    hasValidCatDoc i (processEmail env parsed accountId folder idx).index
    := by
  unfold processEmail
  split
  · exact h
  · obtain ⟨d, hd, hid, hcat⟩ := h
    simp only [processNewEmail]
    set doc0 := buildEmailDoc env parsed accountId folder
      (jsTrim (parsed.messageId.getD "")) with hdoc0
    set cat := categorizeEmail env.classify with hc
    refine ⟨(fun d' => if d'.id = doc0.id then { d' with aiCategory := cat }
      else d') d, ?_, ?_⟩
    · exact List.mem_map_of_mem _ (List.mem_cons_of_mem doc0 hd)
    · by_cases hdi : d.id = doc0.id
      · simp only [hdi, if_pos rfl]
        exact ⟨hid ▸ hdi ▸ rfl, categorizeEmail_mem_valid env.classify⟩
      · simp only [if_neg hdi]
        exact ⟨hid, hcat⟩

theorem processEmail_inserted_validCat (env : MsgEnv)
    (parsed : ParsedMail) (accountId folder : String) (idx : ESIndex)
    (d : EmailDocument)
    (h : (processEmail env parsed accountId folder idx).inserted = some d) :
    hasValidCatDoc d.id (processEmail env parsed accountId folder idx).index
    := by
  unfold processEmail at h ⊢
  by_cases hdup : jsTrim (parsed.messageId.getD "") ≠ "" ∧
      existsByMessageId (jsTrim (parsed.messageId.getD "")) idx = true
  · rw [if_pos hdup] at h
    exact absurd h (by simp)
  · rw [if_neg hdup] at h ⊢
    simp only [processNewEmail, Option.some.injEq] at h ⊢
    set doc0 := buildEmailDoc env parsed accountId folder
      (jsTrim (parsed.messageId.getD "")) with hdoc0
    set cat := categorizeEmail env.classify with hc
    refine ⟨{ doc0 with aiCategory := cat }, ?_, ?_, ?_⟩
    · have : (fun d' => if d'.id = doc0.id then
          { d' with aiCategory := cat } else d') doc0 =
          { doc0 with aiCategory := cat } := by simp
      rw [← this]
      exact List.mem_map_of_mem _ (List.mem_cons_self doc0 idx)
    · rw [← h]
    · exact categorizeEmail_mem_valid env.classify

theorem batch_foldl_validCat (env : SyncEnv) (accountId folder : String)
    (seqNos : List Nat) (acc : BatchResult)
    (hacc : ∀ p ∈ acc.trace, ∀ d, p.2 = some d →
      hasValidCatDoc d.id acc.index) :
    ∀ p ∈ (seqNos.foldl (batchStep env accountId folder) acc).trace,
      ∀ d, p.2 = some d →
        hasValidCatDoc d.id
          (seqNos.foldl (batchStep env accountId folder) acc).index := by
  induction seqNos generalizing acc with
  | nil => exact hacc
  | cons s rest ih =>
      simp only [List.foldl_cons]
      apply ih
      unfold batchStep
      cases h : env.parse s with
      | none => exact hacc
      | some parsed =>
          intro p hp d hd
          simp only [List.mem_append, List.mem_singleton] at hp
          rcases hp with hp | hp
          · exact processEmail_preserves_validCat _ _ _ _ _ _
              (hacc p hp d hd)
          · subst hp
            simp only at hd
            exact processEmail_inserted_validCat _ _ _ _ _ _ hd

/-- C4: when the primary folder holds more than 10 messages (and each of
the 10 most recent parses), initial sync runs the pipeline on exactly
the last 10 message identifiers of the enumeration — 10 of them — and
every message not skipped as a duplicate ends with a persisted record
(matched by generated id) whose category field is populated with one of
the six fixed categories. -/
theorem initialSync_caps_at_ten_and_persists (env : SyncEnv)
    (accountId : String) (results : List Nat) (idx : ESIndex)
    (hlen : 10 < results.length)
    (hparse : ∀ s ∈ takeLast 10 results, (env.parse s).isSome = true) :
    (performInitialSync env accountId results idx).trace.map Prod.fst =
      takeLast 10 results
    ∧ (takeLast 10 results).length = 10
    ∧ ∀ p ∈ (performInitialSync env accountId results idx).trace, ∀ d,
        p.2 = some d →
        hasValidCatDoc d.id
          (performInitialSync env accountId results idx).index := by
  have hne : ¬ results.isEmpty := by
    cases results with
    | nil => simp at hlen
    | cons a l => simp
  refine ⟨?_, ?_, ?_⟩
  · unfold performInitialSync
    rw [if_neg hne]
    unfold fetchEmailsBySeqNo
    rw [batch_foldl_trace]
    simp only [List.map_nil, List.nil_append]
    exact List.filter_eq_self.mpr (by
      intro s hs
      simpa using hparse s hs)
  · unfold takeLast
    rw [List.length_drop]
    omega
  · unfold performInitialSync
    rw [if_neg hne]
    unfold fetchEmailsBySeqNo
    exact batch_foldl_validCat env accountId "INBOX" (takeLast 10 results)
      { index := idx, trace := [], ok := true } (by simp)

/-- Witness for C4: a concrete mailbox enumeration of 12 messages syncs
exactly the last 10. -/
theorem initialSync_caps_at_ten_and_persists_witness :
    (performInitialSync exSyncEnv "a"
        [101, 102, 103, 104, 105, 106, 107, 108, 109, 110, 111, 112]
        []).trace.map Prod.fst =
      takeLast 10 [101, 102, 103, 104, 105, 106, 107, 108, 109, 110, 111,
        112]
    ∧ (takeLast 10 [101, 102, 103, 104, 105, 106, 107, 108, 109, 110, 111,
        112] : List Nat).length = 10 :=
  ⟨(initialSync_caps_at_ten_and_persists exSyncEnv "a"
      [101, 102, 103, 104, 105, 106, 107, 108, 109, 110, 111, 112] []
      (by decide) (by decide)).1,
   (initialSync_caps_at_ten_and_persists exSyncEnv "a"
      [101, 102, 103, 104, 105, 106, 107, 108, 109, 110, 111, 112] []
      (by decide) (by decide)).2.1⟩

end EmailAgg
